import Mathlib

/-!
Shallow embedding of the core simulation machinery of the repository
(backtesting portfolio and order state machine, ATR indicator, trailing-stop
engine, strategy R-multiple computation, execution engine with slippage and
commission models, trade metrics, kill-switch triggers), together with
theorems settling the specification claims against it.

Money, prices and returns are embedded as exact rationals (`ℚ`); Python `int`
quantities as `ℤ`.  Python exceptions (`ValueError`) are embedded as `Option`
results.  Mutation is embedded as explicit state passing: a method that
mutates `self` becomes a function returning the updated value.
-/

namespace Spec2Proof

/-- A model of `datetime.datetime`: `abs` is the absolute ordering key
(seconds since an epoch), `timeOfDay` the time-of-day component used by the
time-based trigger, `weekday` the day of week (0 = Monday). -/
structure Timestamp where
  abs : ℚ
  timeOfDay : ℚ
  weekday : ℕ
deriving DecidableEq, Repr

namespace Core

/-! ### src/backtesting/core/order.py -/

/-- `OrderType` enum. -/
inductive OrderType
  | market
  | limit
  | stop
  | stopLimit
deriving DecidableEq, Repr

/-- `OrderStatus` enum. -/
inductive OrderStatus
  | pending
  | filled
  | canceled
  | rejected
deriving DecidableEq, Repr

/-- The `Order` dataclass. -/
structure Order where
  symbol : String
  quantity : ℤ
  order_type : OrderType
  side : String
  price : Option ℚ := none
  stop_price : Option ℚ := none
  timestamp : Option Timestamp := none
  status : OrderStatus := .pending
  fill_price : Option ℚ := none
  fill_timestamp : Option Timestamp := none
deriving DecidableEq, Repr

/-- `Order.fill(price, timestamp=None)`: sets status FILLED, records the fill
price, and records `timestamp or datetime.now()` (`now` models the ambient
clock used when the caller passes no timestamp). -/
def Order.fill (o : Order) (price : ℚ) (t : Option Timestamp) (now : Timestamp) : Order :=
  { o with status := .filled, fill_price := some price,
           fill_timestamp := some (t.getD now) }

/-- `Order.cancel()`: sets status CANCELED (unconditionally, as in the source). -/
def Order.cancel (o : Order) : Order :=
  { o with status := .canceled }

/-- `Order.reject()`: sets status REJECTED (unconditionally, as in the source). -/
def Order.reject (o : Order) : Order :=
  { o with status := .rejected }

/-! ### src/backtesting/core/portfolio.py -/

/-- The `Position` class. -/
structure Position where
  symbol : String
  quantity : ℤ
  average_price : ℚ
  total_cost : ℚ
deriving DecidableEq, Repr

/-- `Position.__init__(symbol)`. -/
def Position.init (symbol : String) : Position :=
  { symbol := symbol, quantity := 0, average_price := 0, total_cost := 0 }

/-- `Position.add_shares(quantity, price)`. -/
def Position.add_shares (p : Position) (quantity : ℤ) (price : ℚ) : Position :=
  if p.quantity = 0 then
    { p with average_price := price,
             total_cost := (quantity : ℚ) * price,
             quantity := p.quantity + quantity }
  else
    let new_total_cost := p.total_cost + (quantity : ℚ) * price
    let new_quantity := p.quantity + quantity
    { p with average_price := if new_quantity ≠ 0 then new_total_cost / (new_quantity : ℚ) else 0,
             total_cost := new_total_cost,
             quantity := p.quantity + quantity }

/-- `Position.remove_shares(quantity)`: `none` models the `ValueError` raised
when more shares are removed than held; otherwise returns the updated
position and the returned "realized P&L" value. -/
def Position.remove_shares (p : Position) (quantity : ℤ) : Option (Position × ℚ) :=
  if quantity > p.quantity then
    none
  else if p.quantity > 0 then
    let cost_per_share := p.total_cost / (p.quantity : ℚ)
    let realized_pnl := (quantity : ℚ) * (0 - cost_per_share)
    some ({ p with total_cost := p.total_cost - (quantity : ℚ) * cost_per_share,
                   quantity := p.quantity - quantity }, realized_pnl)
  else
    some ({ p with quantity := p.quantity - quantity }, 0)

/-- `Position.market_value(current_price)`. -/
def Position.market_value (p : Position) (current_price : ℚ) : ℚ :=
  (p.quantity : ℚ) * current_price

/-- One entry of `Portfolio.trades` (a Python dict with fixed keys). -/
structure Trade where
  timestamp : Option Timestamp
  symbol : String
  side : String
  quantity : ℤ
  price : ℚ
  value : ℚ
deriving DecidableEq, Repr

/-- The `Portfolio` class.  `positions` models the insertion-ordered
`Dict[str, Position]`; `orders` and `equity_curve` are carried for
completeness (the executed `Order` object is returned alongside the updated
portfolio, since the embedding is functional). -/
structure Portfolio where
  initial_cash : ℚ
  cash : ℚ
  positions : List (String × Position)
  orders : List Order
  trades : List Trade
  equity_curve : List (Timestamp × ℚ)
deriving DecidableEq, Repr

/-- `Portfolio.__init__(initial_cash)`. -/
def Portfolio.init (initial_cash : ℚ) : Portfolio :=
  { initial_cash := initial_cash, cash := initial_cash,
    positions := [], orders := [], trades := [], equity_curve := [] }

/-- Lookup in the insertion-ordered position dictionary. -/
def lookupPosition (ps : List (String × Position)) (symbol : String) : Option Position :=
  (ps.find? (fun e => e.1 == symbol)).map (·.2)

/-- `Portfolio.get_position(symbol)`: returns the existing position or
inserts (at the end, as a Python dict does) and returns a fresh one.  The
second component is the updated dictionary. -/
def get_position (ps : List (String × Position)) (symbol : String) :
    Position × List (String × Position) :=
  match lookupPosition ps symbol with
  | some p => (p, ps)
  | none => (Position.init symbol, ps ++ [(symbol, Position.init symbol)])

/-- Write back a (mutated) position under its key, preserving dict order. -/
def set_position (ps : List (String × Position)) (symbol : String) (p : Position) :
    List (String × Position) :=
  ps.map (fun e => if e.1 == symbol then (e.1, p) else e)

/-- `Portfolio.execute_order(order, execution_price)`.  Returns the updated
portfolio and the (mutated) order; `none` models an uncaught `ValueError`
from `remove_shares` (unreachable because of the quantity guard).  `now`
models `datetime.now()` used for the fill timestamp. -/
def Portfolio.execute_order (P : Portfolio) (order : Order) (execution_price : ℚ)
    (now : Timestamp) : Option (Portfolio × Order) :=
  let total_cost := (order.quantity : ℚ) * execution_price
  if order.side == "buy" then
    if P.cash ≥ total_cost then
      let pr := get_position P.positions order.symbol
      let position := pr.1.add_shares order.quantity execution_price
      let o := order.fill execution_price none now
      some ({ P with cash := P.cash - total_cost,
                     positions := set_position pr.2 order.symbol position,
                     trades := P.trades ++
                       [{ timestamp := o.fill_timestamp, symbol := order.symbol,
                          side := order.side, quantity := order.quantity,
                          price := execution_price, value := total_cost }] }, o)
    else
      some (P, order.reject)
  else if order.side == "sell" then
    let pr := get_position P.positions order.symbol
    if pr.1.quantity ≥ order.quantity then
      match pr.1.remove_shares order.quantity with
      | none => none
      | some (position, _) =>
        let o := order.fill execution_price none now
        some ({ P with cash := P.cash + total_cost,
                       positions := set_position pr.2 order.symbol position,
                       trades := P.trades ++
                         [{ timestamp := o.fill_timestamp, symbol := order.symbol,
                            side := order.side, quantity := order.quantity,
                            price := execution_price, value := total_cost }] }, o)
    else
      some ({ P with positions := pr.2 }, order.reject)
  else
    some (P, order)

/-- Price lookup in `current_prices` (`symbol in current_prices`). -/
def lookupPrice (prices : List (String × ℚ)) (symbol : String) : Option ℚ :=
  (prices.find? (fun e => e.1 == symbol)).map (·.2)

/-- The body of the `get_total_value` loop: add the market value when the
symbol has a price and the position's quantity is positive. -/
def total_value_step (current_prices : List (String × ℚ)) (total : ℚ)
    (e : String × Position) : ℚ :=
  match lookupPrice current_prices e.1 with
  | some price => if e.2.quantity > 0 then total + e.2.market_value price else total
  | none => total

/-- `Portfolio.get_total_value(current_prices)`: cash plus the market value
of every position whose symbol has a price and whose quantity is positive. -/
def Portfolio.get_total_value (P : Portfolio) (current_prices : List (String × ℚ)) : ℚ :=
  P.positions.foldl (total_value_step current_prices) P.cash

end Core

namespace FPT

/-! ### src/fantastic_palm_tree/indicators/atr.py -/

/-- The `ATRCalculator` class: a fixed period and the rolling list of true
ranges. -/
structure ATRCalculator where
  period : ℕ
  true_ranges : List ℚ
deriving DecidableEq, Repr

/-- `ATRCalculator.__init__(period)`. -/
def ATRCalculator.init (period : ℕ) : ATRCalculator :=
  { period := period, true_ranges := [] }

/-- The true range computed inside `add_bar`. -/
def trueRange (high low prev_close : ℚ) : ℚ :=
  max (high - low) (max |high - prev_close| |low - prev_close|)

/-- `ATRCalculator.add_bar(high, low, prev_close)` (state part): append the
true range, then `pop(0)` if the window exceeded the period. -/
def ATRCalculator.add_bar (c : ATRCalculator) (high low prev_close : ℚ) : ATRCalculator :=
  let l := c.true_ranges ++ [trueRange high low prev_close]
  { c with true_ranges := if l.length > c.period then l.tail else l }

/-- `ATRCalculator.get_atr()`. -/
def ATRCalculator.get_atr (c : ATRCalculator) : ℚ :=
  if c.true_ranges = [] then 0
  else c.true_ranges.sum / (c.true_ranges.length : ℚ)

/-- `ATRCalculator.has_enough_samples(min_samples)`. -/
def ATRCalculator.has_enough_samples (c : ATRCalculator) (min_samples : ℕ) : Bool :=
  c.true_ranges.length ≥ min_samples

/-- Feed a list of `(high, low, prev_close)` bars through `add_bar`. -/
def ATRCalculator.feed (c : ATRCalculator) (bars : List (ℚ × ℚ × ℚ)) : ATRCalculator :=
  bars.foldl (fun s b => s.add_bar b.1 b.2.1 b.2.2) c

/-! ### src/fantastic_palm_tree/models/position.py -/

/-- The `TradePosition` dataclass. -/
structure TradePosition where
  entry_price : ℚ
  size : ℚ
  entry_atr : ℚ
  is_long : Bool
  timestamp : ℤ := 0
  stop_price : Option ℚ := none
deriving DecidableEq, Repr

/-! ### src/fantastic_palm_tree/config.py -/

/-- The `exits["trailing"]` configuration dict, after `__post_init__` has
filled the `DEFAULT_TRAILING` defaults (so every key is present). -/
structure TrailingConfig where
  enabled : Bool
  type : String
  use_dynamic_atr : Bool
  dynamic_atr_min_samples : ℕ
deriving DecidableEq, Repr

/-! ### src/fantastic_palm_tree/risk/trailing.py -/

/-- `TrailingStopEngine.compute_distance(position)`: the trailing config and
the ATR calculator are the engine's fields, passed explicitly here. -/
def compute_distance (cfg : TrailingConfig) (atr_calc : ATRCalculator)
    (position : Option TradePosition) : ℚ :=
  match position with
  | none => 0
  | some p =>
    if !cfg.enabled then 0
    else if cfg.type ≠ "atr" then 0
    else if cfg.use_dynamic_atr then
      if atr_calc.has_enough_samples cfg.dynamic_atr_min_samples then atr_calc.get_atr
      else p.entry_atr
    else p.entry_atr

/-- `TrailingStopEngine.update_trailing_stop(position, current_price)`:
returns the mutated position together with the method's return value
(`None` when the distance is non-positive, else the position's stop). -/
def update_trailing_stop (cfg : TrailingConfig) (atr_calc : ATRCalculator)
    (position : TradePosition) (current_price : ℚ) : TradePosition × Option ℚ :=
  let distance := compute_distance cfg atr_calc (some position)
  if distance ≤ 0 then (position, none)
  else if position.is_long then
    let new_stop := current_price - distance
    -- `stop_price is None or new_stop > stop_price`
    let position :=
      match position.stop_price with
      | none => { position with stop_price := some new_stop }
      | some s =>
        if new_stop > s then { position with stop_price := some new_stop } else position
    (position, position.stop_price)
  else
    let new_stop := current_price + distance
    -- `stop_price is None or new_stop < stop_price`
    let position :=
      match position.stop_price with
      | none => { position with stop_price := some new_stop }
      | some s =>
        if new_stop < s then { position with stop_price := some new_stop } else position
    (position, position.stop_price)

/-- One per-bar input to the trailing engine: the configuration and ATR state
as they happen to be on that bar (both may evolve arbitrarily between bars),
and the bar's close used as `current_price`. -/
structure TrailStep where
  cfg : TrailingConfig
  atr_calc : ATRCalculator
  close : ℚ
deriving Repr

/-- Iterate `update_trailing_stop` over a sequence of bars. -/
def runTrailing (position : TradePosition) (steps : List TrailStep) : TradePosition :=
  steps.foldl (fun p st => (update_trailing_stop st.cfg st.atr_calc p st.close).1) position

/-! ### R-multiple computations -/

/-- `EnhancedStrategy._compute_r_multiple(position_pnl, position)`
(src/fantastic_palm_tree/strategy/enhanced.py). -/
def enhanced_compute_r_multiple (position_pnl : ℚ) (position : TradePosition) : ℚ :=
  if position.size = 0 then 0
  else
    let risk_per_share := if position.entry_atr > 0 then position.entry_atr else 1
    let per_share := position_pnl / position.size
    if risk_per_share > 0 then per_share / risk_per_share else 0

/-- `ATRBreakoutStrategy._compute_r_multiple(pnl, position)`
(src/fantastic_palm_tree/strategy/atr_breakout.py); the
`stop_loss_atr_multiplier` comes from the strategy's config. -/
def breakout_compute_r_multiple (pnl : ℚ) (position : TradePosition)
    (stop_loss_atr_multiplier : ℚ) : ℚ :=
  if position.entry_atr = 0 then 0
  else if position.entry_atr ≤ 0 then 0
  else
    let initial_risk := position.size * position.entry_atr * stop_loss_atr_multiplier
    if initial_risk ≤ 0 then 0
    else pnl / initial_risk

/-- Modelled from the spec's words (for comparison with the source):
R-multiple = `realized_pnl / (size × entry_atr × stop_loss_atr_multiplier)`,
and 0 when that denominator is ≤ 0. -/
def specRMultiple (realized_pnl size entry_atr stop_loss_atr_multiplier : ℚ) : ℚ :=
  let denom := size * entry_atr * stop_loss_atr_multiplier
  if denom ≤ 0 then 0 else realized_pnl / denom

end FPT

namespace Enh

/-! ### src/enhancements_strategy.py — slippage, commission, execution -/

/-- The `Order` dataclass of the enhancements module. -/
structure Order where
  symbol : String
  side : String
  qty : ℚ
  order_type : String := "MARKET"
  price : Option ℚ := none
deriving DecidableEq, Repr

/-- The `Fill` dataclass. -/
structure Fill where
  symbol : String
  side : String
  qty : ℚ
  price : ℚ
  commission : ℚ := 0
deriving DecidableEq, Repr

/-- One slippage tier dict (`{'adv_threshold': …, 'bps': …}`). -/
structure Tier where
  adv_threshold : ℚ
  bps : ℚ
deriving DecidableEq, Repr

/-- The slippage model class hierarchy: the no-op base class,
`FixedSlippageModel`, `PercentageSlippageModel` and
`VolumeBasedSlippageModel` (whose field holds the tiers already sorted by
`adv_threshold`, as its `__init__` leaves them). -/
inductive SlippageModel
  | base
  | fixed (slippage_amount : ℚ)
  | percentage (slippage_bps : ℚ)
  | volumeBased (tiers : List Tier)
deriving DecidableEq, Repr

/-- `VolumeBasedSlippageModel.__init__`: sorts the tiers ascending by
`adv_threshold`. -/
def mkVolumeBased (tiers : List Tier) : SlippageModel :=
  .volumeBased (tiers.insertionSort (fun a b => a.adv_threshold ≤ b.adv_threshold))

/-- The tier-selection loop of `VolumeBasedSlippageModel.calculate_slippage`:
`slippage_bps = 0`, then scan `reversed(tiers)` and take the first tier with
`volume ≥ adv_threshold`. -/
def pickTierBps (tiers : List Tier) (volume : ℚ) : ℚ :=
  match tiers.reverse.find? (fun t => decide (volume ≥ t.adv_threshold)) with
  | some t => t.bps
  | none => 0

/-- `calculate_slippage(order, market_price, volume)` for each model. -/
def SlippageModel.calculate_slippage (m : SlippageModel) (order : Order)
    (market_price volume : ℚ) : ℚ :=
  match m with
  | .base => 0
  | .fixed slippage_amount =>
      if order.side == "BUY" then slippage_amount else -slippage_amount
  | .percentage slippage_bps =>
      let slippage_rate := slippage_bps / 10000
      let slippage := market_price * slippage_rate
      if order.side == "BUY" then slippage else -slippage
  | .volumeBased tiers =>
      let slippage_bps := pickTierBps tiers volume
      if slippage_bps = 0 then 0
      else
        let slippage_rate := slippage_bps / 10000
        let slippage := market_price * slippage_rate
        if order.side == "BUY" then slippage else -slippage

/-- One commission tier dict (`{'threshold': …, 'rate': …}`). -/
structure CTier where
  threshold : ℚ
  rate : ℚ
deriving DecidableEq, Repr

/-- The commission model class hierarchy: the no-op base class,
`PerShareCommissionModel`, `PercentageCommissionModel` and
`TieredCommissionModel` (tiers sorted by threshold, as its `__init__`
leaves them). -/
inductive CommissionModel
  | base
  | perShare (per_share min_commission : ℚ)
  | percentage (rate min_commission : ℚ)
  | tiered (tiers : List CTier)
deriving DecidableEq, Repr

/-- `calculate_commission(order, fill_price)` for each model. -/
def CommissionModel.calculate_commission (m : CommissionModel) (order : Order)
    (fill_price : ℚ) : ℚ :=
  match m with
  | .base => 0
  | .perShare per_share min_commission =>
      max (order.qty * per_share) min_commission
  | .percentage rate min_commission =>
      max (order.qty * fill_price * rate) min_commission
  | .tiered tiers =>
      let trade_value := order.qty * fill_price
      let rate :=
        match tiers.reverse.find? (fun t => decide (trade_value ≥ t.threshold)) with
        | some t => t.rate
        | none => (1 : ℚ) / 1000
      trade_value * rate

/-- The `ExecutionEngine` class. -/
structure ExecutionEngine where
  slippage_model : SlippageModel
  commission_model : CommissionModel
  execution_delay_ms : ℤ := 0
  spread_bps : ℚ := 0
deriving DecidableEq, Repr

/-- `ExecutionEngine.execute_order(order, market_price, volume)`. -/
def ExecutionEngine.execute_order (e : ExecutionEngine) (order : Order)
    (market_price volume : ℚ) : Fill :=
  let spread := market_price * (e.spread_bps / 10000)
  let base_price :=
    if order.side == "BUY" then market_price + spread / 2
    else market_price - spread / 2
  let slippage := e.slippage_model.calculate_slippage order base_price volume
  let fill_price := base_price + slippage
  let commission := e.commission_model.calculate_commission order fill_price
  { symbol := order.symbol, side := order.side, qty := order.qty,
    price := fill_price, commission := commission }

end Enh

namespace Metrics

/-! ### src/backtesting/metrics/processors/trades.py -/

/-- A trade dict as consumed by `TradeListProcessor.process_trade`:
only the `pnl` key matters for the statistics; it may be absent
(`trade.get('pnl', 0.0)`). -/
structure TradeRec where
  pnl : Option ℚ
deriving DecidableEq, Repr

/-- The mutable statistics of `TradeListProcessor` (after `initialize`;
the appended `trade_id` is the index in `trades`). -/
structure TradeListProcessor where
  trades : List TradeRec
  trade_count : ℕ
  winning_trades : ℕ
  losing_trades : ℕ
  total_pnl : ℚ
  gross_wins : ℚ
  gross_losses : ℚ
deriving DecidableEq, Repr

/-- The state right after `TradeListProcessor.initialize`. -/
def TradeListProcessor.initState : TradeListProcessor :=
  { trades := [], trade_count := 0, winning_trades := 0, losing_trades := 0,
    total_pnl := 0, gross_wins := 0, gross_losses := 0 }

/-- `TradeListProcessor.process_trade(trade)`. -/
def TradeListProcessor.process_trade (s : TradeListProcessor) (t : TradeRec) :
    TradeListProcessor :=
  let s := { s with trades := s.trades ++ [t], trade_count := s.trade_count + 1 }
  let pnl := t.pnl.getD 0
  let s := { s with total_pnl := s.total_pnl + pnl }
  if pnl > 0 then
    { s with winning_trades := s.winning_trades + 1, gross_wins := s.gross_wins + pnl }
  else if pnl < 0 then
    { s with losing_trades := s.losing_trades + 1, gross_losses := s.gross_losses + |pnl| }
  else s

/-- Process a whole list of trades from the initialized state. -/
def processAll (ts : List TradeRec) : TradeListProcessor :=
  ts.foldl TradeListProcessor.process_trade TradeListProcessor.initState

/-- The summary part of `TradeListProcessor.get_metrics()` (the returned
dict minus the DataFrame).  `profit_factor` lives in `WithTop ℚ` because the
source returns `float('inf')` when there are no gross losses. -/
structure TLMetrics where
  total_trades : ℕ
  winning_trades : ℕ
  losing_trades : ℕ
  win_rate : ℚ
  avg_win : ℚ
  avg_loss : ℚ
  profit_factor : WithTop ℚ
  total_pnl : ℚ
  gross_wins : ℚ
  gross_losses : ℚ
deriving DecidableEq

/-- `TradeListProcessor.get_metrics()` (the no-trade branch returns a dict
without the `gross_wins`/`gross_losses` keys; both tallies are 0 there). -/
def TradeListProcessor.get_metrics (s : TradeListProcessor) : TLMetrics :=
  if s.trades = [] then
    { total_trades := 0, winning_trades := 0, losing_trades := 0, win_rate := 0,
      avg_win := 0, avg_loss := 0, profit_factor := 0, total_pnl := 0,
      gross_wins := 0, gross_losses := 0 }
  else
    { total_trades := s.trade_count
      winning_trades := s.winning_trades
      losing_trades := s.losing_trades
      win_rate := if s.trade_count > 0 then (s.winning_trades : ℚ) / (s.trade_count : ℚ) else 0
      avg_win := if s.winning_trades > 0 then s.gross_wins / (s.winning_trades : ℚ) else 0
      avg_loss := if s.losing_trades > 0 then s.gross_losses / (s.losing_trades : ℚ) else 0
      profit_factor :=
        if s.gross_losses > 0 then ((s.gross_wins / s.gross_losses : ℚ) : WithTop ℚ) else ⊤
      total_pnl := s.total_pnl
      gross_wins := s.gross_wins
      gross_losses := s.gross_losses }

/-! ### src/backtesting/metrics/calculator.py, `_calculate_trade_metrics` -/

/-- One row of the `trades_df` DataFrame (only the `side` and `value`
columns are read). -/
structure CalcRow where
  side : String
  value : ℚ
deriving DecidableEq, Repr

/-- The dict returned by `MetricsCalculator._calculate_trade_metrics`. -/
structure CalcTradeMetrics where
  total_trades : ℕ
  winning_trades : ℕ
  losing_trades : ℕ
  win_rate : ℚ
  avg_win : ℚ
  avg_loss : ℚ
  profit_factor : ℚ
deriving DecidableEq, Repr

/-- `MetricsCalculator._calculate_trade_metrics(trades_df)`: every `sell`
row is counted as a win and every `buy` row as a loss, with `value` sums as
gross win/loss amounts. -/
def calculate_trade_metrics (rows : List CalcRow) : CalcTradeMetrics :=
  if rows = [] then
    { total_trades := 0, winning_trades := 0, losing_trades := 0,
      win_rate := 0, avg_win := 0, avg_loss := 0, profit_factor := 0 }
  else
    let total_trades := rows.length
    let wins := ((rows.filter (fun r => r.side == "sell")).map (·.value)).sum
    let losses := ((rows.filter (fun r => r.side == "buy")).map (·.value)).sum
    let winning_trades := (rows.filter (fun r => r.side == "sell")).length
    let losing_trades := (rows.filter (fun r => r.side == "buy")).length
    { total_trades := total_trades
      winning_trades := winning_trades
      losing_trades := losing_trades
      win_rate := if total_trades > 0 then (winning_trades : ℚ) / (total_trades : ℚ) else 0
      avg_win := if winning_trades > 0 then wins / (winning_trades : ℚ) else 0
      avg_loss := if losing_trades > 0 then losses / (losing_trades : ℚ) else 0
      profit_factor := if losses ≠ 0 then wins / |losses| else 0 }

end Metrics

namespace KS

/-! ### src/backtesting/killswitch/triggers.py

Each trigger's `check` is embedded as a function from the trigger state (and
the portfolio, price map and timestamp) to the returned `bool` together with
the updated trigger state.  `datetime` arithmetic uses the `Timestamp`
model (`abs` in seconds, `timedelta(days=d)` = `86400·d` seconds).  Python's
float formatting inside reason strings is modelled by `toString` of the
rationals involved. -/

/-- The `KillSwitchTrigger` base-class state. -/
structure KillSwitchTrigger where
  name : String
  activated : Bool := false
  activation_time : Option Timestamp := none
  activation_reason : Option String := none
deriving DecidableEq, Repr

/-- `KillSwitchTrigger.activate(reason, timestamp)`. -/
def KillSwitchTrigger.activate (b : KillSwitchTrigger) (reason : String)
    (timestamp : Timestamp) : KillSwitchTrigger :=
  { b with activated := true, activation_time := some timestamp,
           activation_reason := some reason }

/-- `KillSwitchTrigger.reset()`. -/
def KillSwitchTrigger.reset (b : KillSwitchTrigger) : KillSwitchTrigger :=
  { b with activated := false, activation_time := none, activation_reason := none }

/-- Python `max` over a list of rationals (callers guard non-emptiness). -/
def pyMax (l : List ℚ) : ℚ :=
  l.foldl max (l.headD 0)

/-- `np.std(l)` squared: the population variance (mean squared deviation
from the mean).  Callers guard non-emptiness (`np.std([])` is NaN). -/
def popVariance (l : List ℚ) : ℚ :=
  if l = [] then 0
  else ((l.map (fun x => (x - l.sum / (l.length : ℚ)) ^ 2)).sum) / (l.length : ℚ)

/-- Exact decision of `np.std(returns) * np.sqrt(252) >= c`: since both
square roots are non-negative, this holds iff `c ≤ 0` or
`c² ≤ 252 · variance` (see `stdVolTripped_iff` below). -/
def stdVolTripped (returns : List ℚ) (c : ℚ) : Bool :=
  decide (c ≤ 0) || decide (c ^ 2 ≤ 252 * popVariance returns)

/-- `np.percentile(l, q)` with the default linear interpolation, for
`0 ≤ q ≤ 100` (numpy rejects other `q`; the embedding is total). -/
def pyPercentile (l : List ℚ) (q : ℚ) : ℚ :=
  let s := l.insertionSort (· ≤ ·)
  let n := s.length
  if n = 0 then 0
  else
    let h := q / 100 * ((n : ℚ) - 1)
    let i := (Rat.floor h).toNat
    let lo := s.getD i 0
    let hi := s.getD (min (i + 1) (n - 1)) 0
    lo + (h - (i : ℚ)) * (hi - lo)

/-- `DrawdownTrigger` state. -/
structure DrawdownTrigger where
  base : KillSwitchTrigger
  max_drawdown : ℚ
  equity_history : List (Timestamp × ℚ) := []
deriving DecidableEq, Repr

/-- `DrawdownTrigger.check(portfolio, current_prices, timestamp)`. -/
def DrawdownTrigger.check (s : DrawdownTrigger) (portfolio : Core.Portfolio)
    (current_prices : List (String × ℚ)) (timestamp : Timestamp) :
    Bool × DrawdownTrigger :=
  if s.base.activated then (true, s)
  else
    let current_value := portfolio.get_total_value current_prices
    let s := { s with equity_history := s.equity_history ++ [(timestamp, current_value)] }
    if s.equity_history.length < 2 then (false, s)
    else
      let values := s.equity_history.map (·.2)
      let peak := pyMax values
      let current_drawdown := (peak - current_value) / peak
      if current_drawdown ≥ s.max_drawdown then
        let reason := "Drawdown " ++ toString current_drawdown ++
          " exceeds limit " ++ toString s.max_drawdown
        (true, { s with base := s.base.activate reason timestamp })
      else (false, s)

/-- `LossTrigger` state. -/
structure LossTrigger where
  base : KillSwitchTrigger
  max_loss : ℚ
deriving DecidableEq, Repr

/-- `LossTrigger.check(portfolio, current_prices, timestamp)`. -/
def LossTrigger.check (s : LossTrigger) (portfolio : Core.Portfolio)
    (current_prices : List (String × ℚ)) (timestamp : Timestamp) :
    Bool × LossTrigger :=
  if s.base.activated then (true, s)
  else
    let current_value := portfolio.get_total_value current_prices
    let loss := portfolio.initial_cash - current_value
    if loss ≥ s.max_loss then
      let reason := "Loss " ++ toString loss ++ " exceeds limit " ++ toString s.max_loss
      (true, { s with base := s.base.activate reason timestamp })
    else (false, s)

/-- The shared return-history update of `VolatilityTrigger.check` and
`VaRTrigger.check`: append the daily return when a previous positive value
exists, append a zero-return seed when the history is empty, then drop
entries older than the lookback cutoff. -/
def updateReturnHistory (history : List (Timestamp × ℚ × ℚ)) (timestamp : Timestamp)
    (current_value : ℚ) (lookback_days : ℕ) : List (Timestamp × ℚ × ℚ) :=
  let history :=
    match history.getLast? with
    | some last =>
      let prev_value := last.2.1
      if prev_value > 0 then
        history ++ [(timestamp, current_value, (current_value - prev_value) / prev_value)]
      else history
    | none => history ++ [(timestamp, current_value, 0)]
  let cutoff := timestamp.abs - 86400 * (lookback_days : ℚ)
  history.filter (fun e => decide (e.1.abs ≥ cutoff))

/-- `VolatilityTrigger` state. -/
structure VolatilityTrigger where
  base : KillSwitchTrigger
  max_volatility : ℚ
  lookback_days : ℕ
  return_history : List (Timestamp × ℚ × ℚ) := []
deriving DecidableEq, Repr

/-- `VolatilityTrigger.check(portfolio, current_prices, timestamp)`. -/
def VolatilityTrigger.check (s : VolatilityTrigger) (portfolio : Core.Portfolio)
    (current_prices : List (String × ℚ)) (timestamp : Timestamp) :
    Bool × VolatilityTrigger :=
  if s.base.activated then (true, s)
  else
    let current_value := portfolio.get_total_value current_prices
    let s := { s with return_history :=
      updateReturnHistory s.return_history timestamp current_value s.lookback_days }
    if s.return_history.length < 10 then (false, s)
    else
      let returns := s.return_history.tail.map (fun e => e.2.2)
      if stdVolTripped returns s.max_volatility then
        let reason := "Volatility exceeds limit " ++ toString s.max_volatility
        (true, { s with base := s.base.activate reason timestamp })
      else (false, s)

/-- `VaRTrigger` state. -/
structure VaRTrigger where
  base : KillSwitchTrigger
  var_limit : ℚ
  confidence : ℚ
  lookback_days : ℕ
  return_history : List (Timestamp × ℚ × ℚ) := []
deriving DecidableEq, Repr

/-- `VaRTrigger.check(portfolio, current_prices, timestamp)`. -/
def VaRTrigger.check (s : VaRTrigger) (portfolio : Core.Portfolio)
    (current_prices : List (String × ℚ)) (timestamp : Timestamp) :
    Bool × VaRTrigger :=
  if s.base.activated then (true, s)
  else
    let current_value := portfolio.get_total_value current_prices
    let s := { s with return_history :=
      updateReturnHistory s.return_history timestamp current_value s.lookback_days }
    if s.return_history.length < 30 then (false, s)
    else
      let returns := s.return_history.tail.map (fun e => e.2.2)
      let var_estimate := pyPercentile returns ((1 - s.confidence) * 100)
      if returns.length > 0 then
        let current_return := returns.getLast?.getD 0
        if current_return ≤ var_estimate ∧ |current_return| > s.var_limit then
          let reason := "Return exceeds VaR estimate " ++ toString var_estimate
          (true, { s with base := s.base.activate reason timestamp })
        else (false, s)
      else (false, s)

/-- `TimeBasedTrigger` state (`start_time`/`end_time` as time-of-day). -/
structure TimeBasedTrigger where
  base : KillSwitchTrigger
  start_time : ℚ
  end_time : ℚ
  trading_days_only : Bool
deriving DecidableEq, Repr

/-- `TimeBasedTrigger.check(portfolio, current_prices, timestamp)`. -/
def TimeBasedTrigger.check (s : TimeBasedTrigger) (portfolio : Core.Portfolio)
    (current_prices : List (String × ℚ)) (timestamp : Timestamp) :
    Bool × TimeBasedTrigger :=
  if s.base.activated then (true, s)
  else
    let current_time := timestamp.timeOfDay
    if current_time < s.start_time ∨ current_time > s.end_time then
      let reason := "Outside trading hours " ++ toString s.start_time ++ "-" ++
        toString s.end_time
      (true, { s with base := s.base.activate reason timestamp })
    else if s.trading_days_only ∧ timestamp.weekday ≥ 5 then
      (true, { s with base := s.base.activate "Weekend - non-trading day" timestamp })
    else (false, s)

/-- A concrete already-activated base state, used to instantiate the
latching theorems at concrete inputs. -/
def sampleActivatedBase : KillSwitchTrigger :=
  { name := "sample", activated := true }

/-- Concrete activated `DrawdownTrigger`. -/
def sampleDrawdown : DrawdownTrigger :=
  { base := sampleActivatedBase, max_drawdown := 1 / 5 }

/-- Concrete activated `LossTrigger`. -/
def sampleLoss : LossTrigger :=
  { base := sampleActivatedBase, max_loss := 100 }

/-- Concrete activated `VolatilityTrigger`. -/
def sampleVolatility : VolatilityTrigger :=
  { base := sampleActivatedBase, max_volatility := 1 / 2, lookback_days := 30 }

/-- Concrete activated `VaRTrigger`. -/
def sampleVaR : VaRTrigger :=
  { base := sampleActivatedBase, var_limit := 1 / 20, confidence := 19 / 20,
    lookback_days := 252 }

/-- Concrete activated `TimeBasedTrigger`. -/
def sampleTime : TimeBasedTrigger :=
  { base := sampleActivatedBase, start_time := 570, end_time := 960,
    trading_days_only := true }

end KS

/-- A fixed concrete timestamp used by concrete instantiations. -/
def t0 : Timestamp := ⟨0, 0, 0⟩

/-- The most recent `min (l.length) period` elements of `l` (spec side:
"the most recent min(n, period) true ranges"). -/
def lastWindow (l : List ℚ) (period : ℕ) : List ℚ :=
  l.drop (l.length - period)

/-- Arithmetic mean, 0 for the empty list (spec side). -/
def meanQ (l : List ℚ) : ℚ :=
  if l = [] then 0 else l.sum / (l.length : ℚ)

end Spec2Proof

namespace Spec2Proof

/-! ## Theorems -/

section ATRTheorems

open FPT

lemma lastWindow_length (l : List ℚ) (period : ℕ) :
    (lastWindow l period).length = min l.length period := by
  simp [lastWindow]
  omega

lemma feed_append (c : ATRCalculator) (bars : List (ℚ × ℚ × ℚ)) (b : ℚ × ℚ × ℚ) :
    c.feed (bars ++ [b]) = (c.feed bars).add_bar b.1 b.2.1 b.2.2 := by
  simp [ATRCalculator.feed]

lemma feed_period (period : ℕ) (bars : List (ℚ × ℚ × ℚ)) :
    ((ATRCalculator.init period).feed bars).period = period := by
  induction bars using List.reverseRecOn with
  | nil => rfl
  | append_singleton bars b ih =>
      rw [feed_append]
      simpa [ATRCalculator.add_bar] using ih

/-- The rolling window of true ranges after feeding `bars` is exactly the
most recent `min n period` true ranges of the fed bars. -/
lemma feed_true_ranges (period : ℕ) (bars : List (ℚ × ℚ × ℚ)) :
    ((ATRCalculator.init period).feed bars).true_ranges
      = lastWindow (bars.map fun b => trueRange b.1 b.2.1 b.2.2) period := by
  simp only [lastWindow]
  induction bars using List.reverseRecOn with
  | nil => simp [ATRCalculator.feed, ATRCalculator.init]
  | append_singleton bars b ih =>
      rw [feed_append, ATRCalculator.add_bar, ih, feed_period, List.map_append,
        List.map_cons, List.map_nil]
      generalize (bars.map fun b => trueRange b.1 b.2.1 b.2.2) = trs
      generalize trueRange b.1 b.2.1 b.2.2 = x
      by_cases hp0 : period = 0
      · subst hp0
        have hdropall : trs.drop (trs.length - 0) = [] := by
          simp [List.drop_length]
        rw [hdropall]
        have hcond : (([] : List ℚ) ++ [x]).length > 0 := by simp
        rw [if_pos hcond]
        have h2 : (trs ++ [x]).length - 0 = trs.length + 1 := by simp
        rw [h2]
        have h3 : (trs ++ [x]).drop (trs.length + 1) = [] := by
          apply List.drop_eq_nil_of_le
          simp
        rw [h3]
        rfl
      · by_cases hge : period ≤ trs.length
        · -- the window is full: one element is evicted from the front
          have hcond : (trs.drop (trs.length - period) ++ [x]).length > period := by
            simp only [List.length_append, List.length_drop, List.length_cons,
              List.length_nil]
            omega
          rw [if_pos hcond]
          have hwne : trs.drop (trs.length - period) ≠ [] := by
            intro h
            have hl := congrArg List.length h
            simp only [List.length_drop, List.length_nil] at hl
            omega
          rw [List.tail_append_of_ne_nil hwne, List.tail_drop]
          have harith : (trs ++ [x]).length - period = trs.length - period + 1 := by
            simp only [List.length_append, List.length_cons, List.length_nil]
            omega
          rw [harith, List.drop_append_of_le_length (by omega)]
        · -- the window still has room: nothing is evicted
          have hlt : trs.length < period := by omega
          have hcond : ¬ (trs.drop (trs.length - period) ++ [x]).length > period := by
            simp only [List.length_append, List.length_drop, List.length_cons,
              List.length_nil, Nat.not_lt]
            omega
          rw [if_neg hcond]
          have h0 : trs.length - period = 0 := by omega
          have h0' : (trs ++ [x]).length - period = 0 := by
            simp only [List.length_append, List.length_cons, List.length_nil]
            omega
          rw [h0, h0', List.drop_zero, List.drop_zero]

/-- C4: after any sequence of `n` `add_bar` calls, `get_atr` is the
arithmetic mean of the most recent `min(n, period)` true ranges (true range
= `max(high − low, |high − prev_close|, |low − prev_close|)`); with no
samples it returns 0; and after exactly `period` bars of identical true
range `x` it equals `x`. -/
theorem atr_is_mean_of_window :
    (∀ (period : ℕ) (bars : List (ℚ × ℚ × ℚ)),
      ((ATRCalculator.init period).feed bars).get_atr
        = meanQ (lastWindow (bars.map fun b => trueRange b.1 b.2.1 b.2.2) period)) ∧
    (∀ period : ℕ, (ATRCalculator.init period).get_atr = 0) ∧
    (∀ (period : ℕ) (bars : List (ℚ × ℚ × ℚ)) (x : ℚ),
      1 ≤ period → bars.length = period →
      (∀ b ∈ bars, trueRange b.1 b.2.1 b.2.2 = x) →
      ((ATRCalculator.init period).feed bars).get_atr = x) := by
  have hmean : ∀ (period : ℕ) (bars : List (ℚ × ℚ × ℚ)),
      ((ATRCalculator.init period).feed bars).get_atr
        = meanQ (lastWindow (bars.map fun b => trueRange b.1 b.2.1 b.2.2) period) := by
    intro period bars
    rw [ATRCalculator.get_atr, feed_true_ranges, meanQ]
  refine ⟨hmean, fun period => rfl, ?_⟩
  intro period bars x hp hlen hall
  rw [hmean]
  have hbz : bars.length - period = 0 := by omega
  have hwin : lastWindow (bars.map fun b => trueRange b.1 b.2.1 b.2.2) period
      = bars.map fun b => trueRange b.1 b.2.1 b.2.2 := by
    rw [lastWindow]
    simp [hbz]
  rw [hwin, meanQ]
  have hne : bars ≠ [] := by
    intro h
    rw [h] at hlen
    simp at hlen
    omega
  have hmapne : bars.map (fun b => trueRange b.1 b.2.1 b.2.2) ≠ [] := by
    simpa using hne
  rw [if_neg hmapne]
  have hsum : (bars.map fun b => trueRange b.1 b.2.1 b.2.2).sum
      = ((bars.map fun b => trueRange b.1 b.2.1 b.2.2).length : ℚ) * x := by
    rw [List.sum_eq_card_nsmul (bars.map fun b => trueRange b.1 b.2.1 b.2.2) x ?_]
    · simp [nsmul_eq_mul]
    · intro y hy
      rcases List.mem_map.mp hy with ⟨b, hb, rfl⟩
      exact hall b hb
  rw [hsum]
  have hbne : (bars.length : ℚ) ≠ 0 := by
    have : bars.length ≠ 0 := by omega
    exact_mod_cast this
  simp only [List.length_map]
  exact mul_div_cancel_left₀ x hbne

/-- Witness for `atr_is_mean_of_window`: with period 2, two bars of true
range 1 give ATR exactly 1. -/
theorem atr_is_mean_of_window_witness :
    (1 ≤ 2 ∧ ([((101 : ℚ), (100 : ℚ), (100 : ℚ)), (102, 101, 101)].length = 2) ∧
      (∀ b ∈ [((101 : ℚ), (100 : ℚ), (100 : ℚ)), (102, 101, 101)],
        FPT.trueRange b.1 b.2.1 b.2.2 = 1)) ∧
    ((FPT.ATRCalculator.init 2).feed
      [((101 : ℚ), (100 : ℚ), (100 : ℚ)), (102, 101, 101)]).get_atr = 1 :=
  ⟨⟨by decide, by decide, by intro b hb; fin_cases hb <;> norm_num [FPT.trueRange]⟩,
   atr_is_mean_of_window.2.2 2 [((101 : ℚ), (100 : ℚ), (100 : ℚ)), (102, 101, 101)] 1
     (by decide) (by decide) (by intro b hb; fin_cases hb <;> norm_num [FPT.trueRange])⟩

end ATRTheorems

section TrailingTheorems

open FPT

/-- One `update_trailing_stop` call never loosens a set stop: for a long
position the stop can only rise, for a short one it can only fall. -/
lemma update_trailing_stop_mono (cfg : TrailingConfig) (atr : ATRCalculator)
    (pos : TradePosition) (price v : ℚ) (hs : pos.stop_price = some v) :
    ∃ v', ((update_trailing_stop cfg atr pos price).1).stop_price = some v' ∧
      (pos.is_long = true → v ≤ v') ∧ (pos.is_long = false → v' ≤ v) := by
  simp only [update_trailing_stop, hs]
  split_ifs with h1 h2 h3
  · exact ⟨v, hs, fun _ => le_refl v, fun _ => le_refl v⟩
  · exact ⟨price - compute_distance cfg atr (some pos), rfl,
      fun _ => le_of_lt h3, fun hfalse => by rw [h2] at hfalse; cases hfalse⟩
  · exact ⟨v, hs, fun _ => le_refl v, fun _ => le_refl v⟩
  · rename_i h4
    exact ⟨price + compute_distance cfg atr (some pos), rfl,
      fun htrue => absurd htrue h2, fun _ => le_of_lt h4⟩
  · exact ⟨v, hs, fun _ => le_refl v, fun _ => le_refl v⟩

/-- `update_trailing_stop` never flips the side of the position. -/
lemma update_trailing_stop_is_long (cfg : TrailingConfig) (atr : ATRCalculator)
    (pos : TradePosition) (price : ℚ) :
    ((update_trailing_stop cfg atr pos price).1).is_long = pos.is_long := by
  rcases h : pos.stop_price with _ | s <;>
    simp only [update_trailing_stop, h] <;> split_ifs <;> rfl

/-- Iterated form of the ratchet along any run of bars. -/
lemma runTrailing_mono (steps : List TrailStep) (pos : TradePosition) (v : ℚ)
    (hs : pos.stop_price = some v) :
    ∃ v', (runTrailing pos steps).stop_price = some v' ∧
      (pos.is_long = true → v ≤ v') ∧ (pos.is_long = false → v' ≤ v) := by
  induction steps generalizing pos v with
  | nil => exact ⟨v, hs, fun _ => le_refl v, fun _ => le_refl v⟩
  | cons st rest ih =>
      obtain ⟨v1, h1, hl1, hs1⟩ :=
        update_trailing_stop_mono st.cfg st.atr_calc pos st.close v hs
      obtain ⟨v2, h2, hl2, hs2⟩ :=
        ih ((update_trailing_stop st.cfg st.atr_calc pos st.close).1) v1 h1
      have hlong := update_trailing_stop_is_long st.cfg st.atr_calc pos st.close
      refine ⟨v2, ?_, ?_, ?_⟩
      · simpa [runTrailing] using h2
      · intro hl
        exact le_trans (hl1 hl) (hl2 (by rw [hlong, hl]))
      · intro hl
        exact le_trans (hs2 (by rw [hlong, hl])) (hs1 hl)

/-- C3: across any sequence of `update_trailing_stop` calls — with the ATR
state and the dynamic/static trailing configuration evolving arbitrarily
between bars — a long position's stop price never decreases while the
position is open, and a short position's stop price never increases. -/
theorem trailing_stop_ratchet :
    (∀ (pos : FPT.TradePosition) (steps : List FPT.TrailStep) (v : ℚ),
      pos.is_long = true → pos.stop_price = some v →
      ∃ v', (FPT.runTrailing pos steps).stop_price = some v' ∧ v ≤ v') ∧
    (∀ (pos : FPT.TradePosition) (steps : List FPT.TrailStep) (v : ℚ),
      pos.is_long = false → pos.stop_price = some v →
      ∃ v', (FPT.runTrailing pos steps).stop_price = some v' ∧ v' ≤ v) := by
  constructor
  · intro pos steps v hl hs
    obtain ⟨v', h1, h2, _⟩ := runTrailing_mono steps pos v hs
    exact ⟨v', h1, h2 hl⟩
  · intro pos steps v hl hs
    obtain ⟨v', h1, _, h3⟩ := runTrailing_mono steps pos v hs
    exact ⟨v', h1, h3 hl⟩

/-- Witness for `trailing_stop_ratchet`: a long position with stop 98 run
through one static-ATR bar keeps a stop ≥ 98. -/
theorem trailing_stop_ratchet_witness :
    (({ entry_price := 100, size := 1, entry_atr := 2, is_long := true,
        stop_price := some 98 : FPT.TradePosition }).is_long = true ∧
     ({ entry_price := 100, size := 1, entry_atr := 2, is_long := true,
        stop_price := some 98 : FPT.TradePosition }).stop_price = some 98) ∧
    (∃ v', (FPT.runTrailing
        { entry_price := 100, size := 1, entry_atr := 2, is_long := true,
          stop_price := some 98 }
        [{ cfg := { enabled := true, type := "atr", use_dynamic_atr := false,
                    dynamic_atr_min_samples := 1 },
           atr_calc := FPT.ATRCalculator.init 14, close := 120 }]).stop_price = some v' ∧
      98 ≤ v') :=
  ⟨⟨rfl, rfl⟩,
   trailing_stop_ratchet.1
     { entry_price := 100, size := 1, entry_atr := 2, is_long := true,
       stop_price := some 98 }
     [{ cfg := { enabled := true, type := "atr", use_dynamic_atr := false,
                 dynamic_atr_min_samples := 1 },
        atr_calc := FPT.ATRCalculator.init 14, close := 120 }]
     98 rfl rfl⟩

end TrailingTheorems

section PortfolioLemmas

open Core

lemma lookupPosition_none_find? {ps : List (String × Position)} {sym : String}
    (h : lookupPosition ps sym = none) :
    ps.find? (fun e => e.1 == sym) = none := by
  unfold lookupPosition at h
  exact Option.map_eq_none'.mp h

lemma lookup_get_position (ps : List (String × Position)) (sym : String) :
    lookupPosition (get_position ps sym).2 sym = some (get_position ps sym).1 := by
  unfold get_position
  cases h : lookupPosition ps sym with
  | some p => exact h
  | none =>
      unfold lookupPosition
      rw [List.find?_append, lookupPosition_none_find? h]
      simp

lemma lookup_get_position_preserved (ps : List (String × Position)) (sym sym' : String)
    (pos : Position) (h : lookupPosition ps sym' = some pos) :
    lookupPosition (get_position ps sym).2 sym' = some pos := by
  unfold get_position
  cases hl : lookupPosition ps sym with
  | some p => exact h
  | none =>
      unfold lookupPosition at h ⊢
      rcases Option.map_eq_some'.mp h with ⟨e, he, hev⟩
      rw [List.find?_append, he]
      simpa using hev


lemma lookupPosition_set (ps : List (String × Position)) (sym : String) (p' : Position)
    (h : (lookupPosition ps sym).isSome) :
    lookupPosition (set_position ps sym p') sym = some p' := by
  induction ps with
  | nil => simp [lookupPosition] at h
  | cons e t ih =>
      cases he : (e.1 == sym) with
      | true => simp [lookupPosition, set_position, List.find?, he]
      | false =>
          have h' : (lookupPosition t sym).isSome := by
            simpa [lookupPosition, List.find?, he] using h
          simpa [lookupPosition, set_position, List.find?, he] using ih h'

lemma get_position_some (ps : List (String × Position)) (sym : String) (p : Position)
    (h : lookupPosition ps sym = some p) : get_position ps sym = (p, ps) := by
  unfold get_position
  rw [h]

/-- The buy-success branch of `Portfolio.execute_order`. -/
lemma execute_order_buy_success (P : Portfolio) (o : Order) (px : ℚ) (now : Timestamp)
    (hside : o.side = "buy") (hcash : (o.quantity : ℚ) * px ≤ P.cash) :
    P.execute_order o px now = some
      ({ P with
          cash := P.cash - (o.quantity : ℚ) * px,
          positions := set_position (get_position P.positions o.symbol).2 o.symbol
            ((get_position P.positions o.symbol).1.add_shares o.quantity px),
          trades := P.trades ++
            [{ timestamp := some now, symbol := o.symbol, side := o.side,
               quantity := o.quantity, price := px, value := (o.quantity : ℚ) * px }] },
        o.fill px none now) := by
  simp only [Portfolio.execute_order, hside]
  rw [if_pos (by simp)]
  rw [if_pos hcash]
  simp [Order.fill, hside]

/-- The buy-rejection branch of `Portfolio.execute_order`: the portfolio is
entirely untouched. -/
lemma execute_order_buy_reject (P : Portfolio) (o : Order) (px : ℚ) (now : Timestamp)
    (hside : o.side = "buy") (hcash : P.cash < (o.quantity : ℚ) * px) :
    P.execute_order o px now = some (P, o.reject) := by
  simp only [Portfolio.execute_order, hside]
  rw [if_pos (by simp)]
  rw [if_neg (by exact not_le.mpr hcash)]

/-- The sell-success branch of `Portfolio.execute_order`. -/
lemma execute_order_sell_success (P : Portfolio) (o : Order) (px : ℚ) (now : Timestamp)
    (pos' : Position) (pnl : ℚ)
    (hside : o.side = "sell")
    (hqty : (get_position P.positions o.symbol).1.quantity ≥ o.quantity)
    (hrem : (get_position P.positions o.symbol).1.remove_shares o.quantity
      = some (pos', pnl)) :
    P.execute_order o px now = some
      ({ P with
          cash := P.cash + (o.quantity : ℚ) * px,
          positions := set_position (get_position P.positions o.symbol).2 o.symbol pos',
          trades := P.trades ++
            [{ timestamp := some now, symbol := o.symbol, side := o.side,
               quantity := o.quantity, price := px, value := (o.quantity : ℚ) * px }] },
        o.fill px none now) := by
  simp only [Portfolio.execute_order, hside]
  rw [if_neg (by decide)]
  rw [if_pos (by decide)]
  rw [if_pos hqty, hrem]
  simp [Order.fill, hside]

/-- The sell-rejection branch of `Portfolio.execute_order`: cash and the
trade list are untouched, but `get_position` may have inserted a fresh empty
position for the symbol. -/
lemma execute_order_sell_reject (P : Portfolio) (o : Order) (px : ℚ) (now : Timestamp)
    (hside : o.side = "sell")
    (hqty : (get_position P.positions o.symbol).1.quantity < o.quantity) :
    P.execute_order o px now
      = some ({ P with positions := (get_position P.positions o.symbol).2 }, o.reject) := by
  simp only [Portfolio.execute_order, hside]
  rw [if_neg (by decide)]
  rw [if_pos (by decide)]
  rw [if_neg (by exact not_le.mpr hqty)]

end PortfolioLemmas

section RoundTripTheorem

open Core

/-- C1: starting from cash `c ≥ q·p` and a flat (or absent) position in the
symbol, executing a buy of `q` at price `p` and then a sell of `q` at the
same price through `Portfolio.execute_order` (which applies no commission or
slippage) restores cash to exactly `c` and leaves the symbol's position with
quantity 0 and total cost 0. -/
theorem buy_sell_round_trip
    (P : Portfolio) (symbol : String) (q : ℤ) (p : ℚ) (now1 now2 : Timestamp)
    (hq : 0 < q) (hp : 0 < p) (hc : (q : ℚ) * p ≤ P.cash)
    (hflat : ∀ pos, lookupPosition P.positions symbol = some pos → pos.quantity = 0) :
    ∃ P1 o1 P2 o2,
      P.execute_order { symbol := symbol, quantity := q, order_type := .market,
                        side := "buy" } p now1 = some (P1, o1) ∧
      P1.execute_order { symbol := symbol, quantity := q, order_type := .market,
                         side := "sell" } p now2 = some (P2, o2) ∧
      o1.status = .filled ∧ o2.status = .filled ∧
      P2.cash = P.cash ∧
      (∃ pos, lookupPosition P2.positions symbol = some pos ∧
        pos.quantity = 0 ∧ pos.total_cost = 0) := by
  have hq0 : (get_position P.positions symbol).1.quantity = 0 := by
    unfold get_position
    cases hl : lookupPosition P.positions symbol with
    | some pos => exact hflat pos hl
    | none => rfl
  have hbuy := execute_order_buy_success P
    { symbol := symbol, quantity := q, order_type := .market, side := "buy" }
    p now1 rfl hc
  set P1 := ({ P with
      cash := P.cash - (q : ℚ) * p,
      positions := set_position (get_position P.positions symbol).2 symbol
        ((get_position P.positions symbol).1.add_shares q p),
      trades := P.trades ++
        [{ timestamp := some now1, symbol := symbol, side := "buy",
           quantity := q, price := p, value := (q : ℚ) * p }] } : Portfolio) with hP1
  -- the position recorded after the buy
  have hadd : (get_position P.positions symbol).1.add_shares q p
      = { (get_position P.positions symbol).1 with
          average_price := p, total_cost := (q : ℚ) * p, quantity := q } := by
    rw [Position.add_shares, if_pos hq0, hq0]
    simp
  have hlook1 : lookupPosition P1.positions symbol
      = some { (get_position P.positions symbol).1 with
               average_price := p, total_cost := (q : ℚ) * p, quantity := q } := by
    rw [hP1]
    simp only
    rw [hadd]
    apply lookupPosition_set
    rw [lookup_get_position]
    rfl
  have hget1 : get_position P1.positions symbol
      = ({ (get_position P.positions symbol).1 with
           average_price := p, total_cost := (q : ℚ) * p, quantity := q }, P1.positions) :=
    get_position_some _ _ _ hlook1
  have hqQ : ((q : ℚ)) ≠ 0 := by
    have h0 : (0 : ℚ) < (q : ℚ) := by exact_mod_cast hq
    exact ne_of_gt h0
  have hrem : ({ (get_position P.positions symbol).1 with
      average_price := p, total_cost := (q : ℚ) * p, quantity := q } : Position).remove_shares q
      = some ({ (get_position P.positions symbol).1 with
                average_price := p,
                total_cost := (q : ℚ) * p - (q : ℚ) * (((q : ℚ) * p) / (q : ℚ)),
                quantity := q - q },
              (q : ℚ) * (0 - ((q : ℚ) * p) / (q : ℚ))) := by
    rw [Position.remove_shares]
    rw [if_neg (by simp)]
    rw [if_pos (by simpa using hq)]
  have hsell := execute_order_sell_success P1
    { symbol := symbol, quantity := q, order_type := .market, side := "sell" }
    p now2
    ({ (get_position P.positions symbol).1 with
       average_price := p,
       total_cost := (q : ℚ) * p - (q : ℚ) * (((q : ℚ) * p) / (q : ℚ)),
       quantity := q - q })
    ((q : ℚ) * (0 - ((q : ℚ) * p) / (q : ℚ)))
    rfl
    (by rw [hget1])
    (by rw [hget1]; exact hrem)
  refine ⟨P1, _, _, _, hbuy, hsell, rfl, rfl, ?_, ?_⟩
  · rw [hP1]
    simp only
    ring
  · refine ⟨{ (get_position P.positions symbol).1 with
        average_price := p,
        total_cost := (q : ℚ) * p - (q : ℚ) * (((q : ℚ) * p) / (q : ℚ)),
        quantity := q - q }, ?_, by simp, ?_⟩
    · simp only
      rw [hget1]
      apply lookupPosition_set
      rw [hlook1]
      rfl
    · simp only
      field_simp

/-- Witness for `buy_sell_round_trip`: a fresh portfolio with cash 1000,
buying then selling 2 shares of "A" at 10. -/
theorem buy_sell_round_trip_witness :
    ((0 : ℤ) < 2 ∧ (0 : ℚ) < 10 ∧
      ((2 : ℤ) : ℚ) * 10 ≤ (Portfolio.init 1000).cash) ∧
    (∃ P1 o1 P2 o2,
      (Portfolio.init 1000).execute_order
        { symbol := "A", quantity := 2, order_type := .market, side := "buy" } 10 t0
        = some (P1, o1) ∧
      P1.execute_order
        { symbol := "A", quantity := 2, order_type := .market, side := "sell" } 10 t0
        = some (P2, o2) ∧
      o1.status = .filled ∧ o2.status = .filled ∧
      P2.cash = (Portfolio.init 1000).cash ∧
      (∃ pos, lookupPosition P2.positions "A" = some pos ∧
        pos.quantity = 0 ∧ pos.total_cost = 0)) :=
  ⟨⟨by decide, by norm_num, by norm_num [Portfolio.init]⟩,
   buy_sell_round_trip (Portfolio.init 1000) "A" 2 10 t0 t0
     (by decide) (by norm_num) (by norm_num [Portfolio.init])
     (by intro pos h; simp [lookupPosition, Portfolio.init] at h)⟩

end RoundTripTheorem

section RejectionTheorems

open Core

/-- C5 counterexample: a sell order on a symbol the portfolio has never
traded is rejected, but `execute_order` is not free of side effects — the
`get_position` call inserts a fresh zero-quantity position into the position
map before the quantity check, so the positions mapping changes. -/
theorem sell_reject_inserts_position :
    (Portfolio.init 100).execute_order
        { symbol := "A", quantity := 1, order_type := .market, side := "sell" } 10 t0
      = some ({ Portfolio.init 100 with positions := [("A", Position.init "A")] },
              Order.reject { symbol := "A", quantity := 1, order_type := .market,
                             side := "sell" })
    ∧ ([("A", Position.init "A")] : List (String × Position))
        ≠ (Portfolio.init 100).positions :=
  ⟨rfl, by simp [Portfolio.init]⟩

/-- C5 (amended): a buy whose cost exceeds cash is rejected with the
portfolio exactly unchanged; a sell whose quantity exceeds the held quantity
is rejected leaving cash, the trade list and every existing position
unchanged, the only possible change being the insertion of a fresh
zero-quantity position for the order's symbol; the rejected order's status
is the terminal `rejected`. -/
theorem execute_order_reject_atomicity :
    ∀ (P : Portfolio) (o : Order) (px : ℚ) (now : Timestamp),
      (o.reject.status = OrderStatus.rejected) ∧
      (o.side = "buy" → P.cash < (o.quantity : ℚ) * px →
        P.execute_order o px now = some (P, o.reject)) ∧
      (o.side = "sell" → (get_position P.positions o.symbol).1.quantity < o.quantity →
        P.execute_order o px now
            = some ({ P with positions := (get_position P.positions o.symbol).2 }, o.reject)
          ∧ (∀ sym pos, lookupPosition P.positions sym = some pos →
              lookupPosition (get_position P.positions o.symbol).2 sym = some pos)) := by
  intro P o px now
  refine ⟨rfl, ?_, ?_⟩
  · intro hside hcash
    exact execute_order_buy_reject P o px now hside hcash
  · intro hside hqty
    exact ⟨execute_order_sell_reject P o px now hside hqty,
      fun sym pos h => lookup_get_position_preserved P.positions o.symbol sym pos h⟩

/-- Witness for `execute_order_reject_atomicity`: a buy of 1 share at 10
with only 5 cash is rejected and leaves the portfolio unchanged. -/
theorem execute_order_reject_atomicity_witness :
    (({ symbol := "A", quantity := 1, order_type := .market,
        side := "buy" : Order }).side = "buy" ∧
      (Portfolio.init 5).cash < (((1 : ℤ)) : ℚ) * 10) ∧
    (Portfolio.init 5).execute_order
        { symbol := "A", quantity := 1, order_type := .market, side := "buy" } 10 t0
      = some (Portfolio.init 5,
          Order.reject { symbol := "A", quantity := 1, order_type := .market,
                         side := "buy" }) :=
  ⟨⟨rfl, by norm_num [Portfolio.init]⟩,
   ((execute_order_reject_atomicity (Portfolio.init 5)
       { symbol := "A", quantity := 1, order_type := .market, side := "buy" }
       10 t0).2.1 rfl (by norm_num [Portfolio.init]))⟩

/-- C10 counterexample: `execute_order` accepts a buy order with negative
quantity (nothing validates the sign), which drives the position quantity
below zero — and even credits cash.  So "no sequence of buy/sell/execute
operations can drive a position quantity below 0" fails as stated. -/
theorem negative_buy_breaks_nonneg :
    (Portfolio.init 100).execute_order
        { symbol := "A", quantity := -1, order_type := .market, side := "buy" } 10 t0
      = some ({ initial_cash := 100, cash := 110,
                positions := [("A", { symbol := "A", quantity := -1,
                                      average_price := 10, total_cost := -10 })],
                orders := [], equity_curve := [],
                trades := [{ timestamp := some t0, symbol := "A", side := "buy",
                             quantity := -1, price := 10, value := -10 }] },
              Order.fill { symbol := "A", quantity := -1, order_type := .market,
                           side := "buy" } 10 none t0)
    ∧ (-1 : ℤ) < 0 := by
  constructor
  · have h := execute_order_buy_success (Portfolio.init 100)
      { symbol := "A", quantity := -1, order_type := .market, side := "buy" } 10 t0 rfl
      (by norm_num [Portfolio.init])
    rw [h]
    norm_num [Portfolio.init, get_position, lookupPosition, set_position,
      Position.init, Position.add_shares, List.find?]
  · decide

end RejectionTheorems

section NonNegTheorems

open Core

lemma lookupPosition_mem {ps : List (String × Position)} {sym : String} {pos : Position}
    (h : lookupPosition ps sym = some pos) : ∃ e ∈ ps, e.2 = pos := by
  unfold lookupPosition at h
  rcases Option.map_eq_some'.mp h with ⟨e, he, hev⟩
  exact ⟨e, List.mem_of_find?_eq_some he, hev⟩

lemma get_position_fst_nonneg (ps : List (String × Position)) (sym : String)
    (hinv : ∀ e ∈ ps, 0 ≤ e.2.quantity) : 0 ≤ (get_position ps sym).1.quantity := by
  unfold get_position
  cases h : lookupPosition ps sym with
  | some pos =>
      rcases lookupPosition_mem h with ⟨e, he, hev⟩
      simpa [hev] using hinv e he
  | none => simp [Position.init]

lemma get_position_snd_nonneg (ps : List (String × Position)) (sym : String)
    (hinv : ∀ e ∈ ps, 0 ≤ e.2.quantity) :
    ∀ e ∈ (get_position ps sym).2, 0 ≤ e.2.quantity := by
  unfold get_position
  cases h : lookupPosition ps sym with
  | some pos => simpa using hinv
  | none =>
      intro e he
      rcases List.mem_append.mp he with h1 | h1
      · exact hinv e h1
      · simp only [List.mem_singleton] at h1
        simp [h1, Position.init]

lemma set_position_nonneg (ps : List (String × Position)) (sym : String) (p' : Position)
    (hinv : ∀ e ∈ ps, 0 ≤ e.2.quantity) (hp' : 0 ≤ p'.quantity) :
    ∀ e ∈ set_position ps sym p', 0 ≤ e.2.quantity := by
  intro e he
  unfold set_position at he
  rcases List.mem_map.mp he with ⟨e0, he0, hev⟩
  by_cases hk : (e0.1 == sym)
  · rw [← hev]
    simpa [hk] using hp'
  · rw [← hev]
    simp only [hk]
    simpa using hinv e0 he0

lemma add_shares_quantity (p : Position) (q : ℤ) (px : ℚ) :
    (p.add_shares q px).quantity = p.quantity + q := by
  unfold Position.add_shares
  split_ifs <;> rfl

lemma remove_shares_quantity (p : Position) (q : ℤ) (pos' : Position) (pnl : ℚ)
    (h : p.remove_shares q = some (pos', pnl)) : pos'.quantity = p.quantity - q := by
  unfold Position.remove_shares at h
  split_ifs at h
  · cases h
    rfl
  · cases h
    rfl

lemma foldl_total_value (prices : List (String × ℚ)) (l : List (String × Position)) (a : ℚ) :
    l.foldl (total_value_step prices) a
    = a + ((l.filter fun e =>
          (lookupPrice prices e.1).isSome && decide (0 < e.2.quantity)).map
        fun e => (e.2.quantity : ℚ) * (lookupPrice prices e.1).getD 0).sum := by
  induction l generalizing a with
  | nil => simp
  | cons e t ih =>
      rw [List.foldl_cons, List.filter_cons]
      cases h : lookupPrice prices e.1 with
      | none =>
          have happ : total_value_step prices a e = a := by
            simp [total_value_step, h]
          rw [happ, ih]
          simp [h]
      | some price =>
          by_cases hq : 0 < e.2.quantity
          · have happ : total_value_step prices a e = a + (e.2.quantity : ℚ) * price := by
              simp [total_value_step, h, hq, Position.market_value]
            rw [happ, ih]
            simp [h, hq] <;> ring
          · have happ : total_value_step prices a e = a := by
              simp [total_value_step, h, hq]
            rw [happ, ih]
            simp [h, hq]

/-- C10 (amended): for orders of non-negative quantity, `execute_order`
preserves non-negativity of every position quantity (sells beyond the held
quantity are rejected and `remove_shares` refuses — raises `ValueError` —
when asked for more shares than held); and `get_total_value` is cash plus
the mark-to-market of exactly those positions with positive quantity whose
symbol has a price. -/
theorem portfolio_quantity_nonneg :
    (∀ (P : Portfolio) (o : Order) (px : ℚ) (now : Timestamp) (P' : Portfolio) (o' : Order),
      (∀ e ∈ P.positions, 0 ≤ e.2.quantity) → 0 ≤ o.quantity →
      P.execute_order o px now = some (P', o') →
      ∀ e ∈ P'.positions, 0 ≤ e.2.quantity) ∧
    (∀ (pos : Position) (q : ℤ), pos.quantity < q → pos.remove_shares q = none) ∧
    (∀ (P : Portfolio) (prices : List (String × ℚ)),
      P.get_total_value prices = P.cash +
        ((P.positions.filter fun e =>
            (lookupPrice prices e.1).isSome && decide (0 < e.2.quantity)).map
          fun e => (e.2.quantity : ℚ) * (lookupPrice prices e.1).getD 0).sum) := by
  refine ⟨?_, ?_, ?_⟩
  · intro P o px now P' o' hinv hq hexec
    by_cases hbuy : o.side = "buy"
    · by_cases hcash : (o.quantity : ℚ) * px ≤ P.cash
      · rw [execute_order_buy_success P o px now hbuy hcash] at hexec
        injection hexec with h1
        injection h1 with h2 h3
        rw [← h2]
        apply set_position_nonneg _ _ _ (get_position_snd_nonneg _ _ hinv)
        rw [add_shares_quantity]
        have := get_position_fst_nonneg P.positions o.symbol hinv
        omega
      · rw [execute_order_buy_reject P o px now hbuy (not_le.mp hcash)] at hexec
        injection hexec with h1
        injection h1 with h2 h3
        rw [← h2]
        exact hinv
    · by_cases hsell : o.side = "sell"
      · by_cases hqty : (get_position P.positions o.symbol).1.quantity ≥ o.quantity
        · cases hrem : (get_position P.positions o.symbol).1.remove_shares o.quantity with
          | none =>
              exfalso
              unfold Position.remove_shares at hrem
              split_ifs at hrem
              omega
          | some r =>
              rw [execute_order_sell_success P o px now r.1 r.2 hsell hqty
                (by rw [hrem])] at hexec
              injection hexec with h1
              injection h1 with h2 h3
              rw [← h2]
              apply set_position_nonneg _ _ _ (get_position_snd_nonneg _ _ hinv)
              rw [remove_shares_quantity _ _ _ _ (by rw [hrem])]
              omega
        · rw [execute_order_sell_reject P o px now hsell (by omega)] at hexec
          injection hexec with h1
          injection h1 with h2 h3
          rw [← h2]
          exact get_position_snd_nonneg _ _ hinv
      · have : P.execute_order o px now = some (P, o) := by
          simp only [Portfolio.execute_order]
          rw [if_neg (by simpa using hbuy), if_neg (by simpa using hsell)]
        rw [this] at hexec
        injection hexec with h1
        injection h1 with h2 h3
        rw [← h2]
        exact hinv
  · intro pos q hq
    unfold Position.remove_shares
    rw [if_pos hq]
  · intro P prices
    exact foldl_total_value prices P.positions P.cash

/-- Witness for `portfolio_quantity_nonneg`: buying 2 shares on a fresh
portfolio keeps every position quantity non-negative. -/
theorem portfolio_quantity_nonneg_witness :
    ((∀ e ∈ (Portfolio.init 1000).positions, 0 ≤ e.2.quantity) ∧ (0 : ℤ) ≤ 2) ∧
    (∀ e ∈ ({ Portfolio.init 1000 with
        cash := (1000 : ℚ) - ((2 : ℤ) : ℚ) * 10,
        positions := set_position
          (get_position (Portfolio.init 1000).positions "A").2 "A"
          ((get_position (Portfolio.init 1000).positions "A").1.add_shares 2 10),
        trades := (Portfolio.init 1000).trades ++
          [{ timestamp := some t0, symbol := "A", side := "buy",
             quantity := 2, price := 10, value := ((2 : ℤ) : ℚ) * 10 }] } : Portfolio).positions,
      0 ≤ e.2.quantity) :=
  ⟨⟨by simp [Portfolio.init], by decide⟩,
   portfolio_quantity_nonneg.1 (Portfolio.init 1000)
     { symbol := "A", quantity := 2, order_type := .market, side := "buy" } 10 t0 _ _
     (by simp [Portfolio.init]) (by decide)
     (execute_order_buy_success (Portfolio.init 1000)
       { symbol := "A", quantity := 2, order_type := .market, side := "buy" } 10 t0 rfl
       (by norm_num [Portfolio.init]))⟩

end NonNegTheorems

section OrderStatusTheorems

open Core

/-- C9 counterexample: calling `cancel` on an order that is already in the
terminal `filled` state overwrites its status with `canceled` — nothing in
the code protects a terminal status. -/
theorem terminal_status_mutable :
    (Order.cancel
        { symbol := "A", quantity := 1, order_type := .market, side := "buy",
          status := .filled, fill_price := some 10,
          fill_timestamp := some t0 }).status = OrderStatus.canceled
    ∧ ({ symbol := "A", quantity := 1, order_type := .market, side := "buy",
         status := .filled, fill_price := some 10,
         fill_timestamp := some t0 : Order }).status = OrderStatus.filled
    ∧ OrderStatus.canceled ≠ OrderStatus.filled :=
  ⟨rfl, rfl, by decide⟩

/-- C9 (amended): `fill`, `cancel` and `reject` set the order's status
unconditionally — so a terminal status can be overwritten by a later call —
while `cancel` and `reject` leave the fill price and fill timestamp
untouched, and no operation ever returns an order to `pending`. -/
theorem order_status_ops :
    ∀ (o : Order) (p : ℚ) (t : Option Timestamp) (now : Timestamp),
      (o.fill p t now).status = OrderStatus.filled ∧
      (o.fill p t now).fill_price = some p ∧
      o.cancel.status = OrderStatus.canceled ∧
      o.cancel.fill_price = o.fill_price ∧
      o.cancel.fill_timestamp = o.fill_timestamp ∧
      o.reject.status = OrderStatus.rejected ∧
      o.reject.fill_price = o.fill_price ∧
      o.reject.fill_timestamp = o.fill_timestamp ∧
      (o.fill p t now).status ≠ OrderStatus.pending ∧
      o.cancel.status ≠ OrderStatus.pending ∧
      o.reject.status ≠ OrderStatus.pending :=
  fun o p t now =>
    ⟨rfl, rfl, rfl, rfl, rfl, rfl, rfl, rfl, by simp [Order.fill],
     by simp [Order.cancel], by simp [Order.reject]⟩

end OrderStatusTheorems

section RMultipleTheorems

open FPT

/-- C2: the two exit paths disagree.  `ATRBreakoutStrategy._compute_r_multiple`
matches the spec formula `pnl / (size × entry_atr × stop_loss_atr_multiplier)`
(0 when the denominator is ≤ 0) whenever `entry_atr ≥ 0` — which the ATR
indicator guarantees — but `EnhancedStrategy._compute_r_multiple` ignores the
multiplier entirely and divides by `size × entry_atr` alone, falling back to
a risk-per-share of 1 (not 0) when `entry_atr ≤ 0`. -/
theorem r_multiple_enhanced_diverges :
    FPT.enhanced_compute_r_multiple 10
      { entry_price := 100, size := 2, entry_atr := 0, is_long := true } = 5 ∧
    FPT.specRMultiple 10 2 0 2 = 0 ∧ (5 : ℚ) ≠ 0 ∧
    FPT.enhanced_compute_r_multiple 2
      { entry_price := 100, size := 1, entry_atr := 1, is_long := true } = 2 ∧
    FPT.specRMultiple 2 1 1 2 = 1 ∧ (2 : ℚ) ≠ 1 ∧
    (∀ (pnl : ℚ) (pos : FPT.TradePosition) (mult : ℚ), 0 ≤ pos.entry_atr →
      FPT.breakout_compute_r_multiple pnl pos mult
        = FPT.specRMultiple pnl pos.size pos.entry_atr mult) := by
  refine ⟨?_, ?_, by norm_num, ?_, ?_, by norm_num, ?_⟩
  · norm_num [enhanced_compute_r_multiple]
  · norm_num [specRMultiple]
  · norm_num [enhanced_compute_r_multiple]
  · norm_num [specRMultiple]
  · intro pnl pos mult hatr
    unfold breakout_compute_r_multiple specRMultiple
    rcases eq_or_lt_of_le hatr with h0 | hpos
    · rw [if_pos h0.symm]
      rw [if_pos (by rw [← h0]; ring_nf; simp)]
    · rw [if_neg (ne_of_gt hpos), if_neg (not_le.mpr hpos)]

/-- Witness for `r_multiple_enhanced_diverges`: the breakout formula agrees
with the spec formula at a concrete positive-ATR position. -/
theorem r_multiple_enhanced_diverges_witness :
    ((0 : ℚ) ≤ ({ entry_price := 100, size := 1, entry_atr := 1,
                  is_long := true : FPT.TradePosition }).entry_atr) ∧
    FPT.breakout_compute_r_multiple 2
        { entry_price := 100, size := 1, entry_atr := 1, is_long := true } 2
      = FPT.specRMultiple 2
          ({ entry_price := 100, size := 1, entry_atr := 1,
             is_long := true : FPT.TradePosition }).size
          ({ entry_price := 100, size := 1, entry_atr := 1,
             is_long := true : FPT.TradePosition }).entry_atr 2 :=
  ⟨by norm_num,
   r_multiple_enhanced_diverges.2.2.2.2.2.2 2
     { entry_price := 100, size := 1, entry_atr := 1, is_long := true } 2
     (by norm_num)⟩

end RMultipleTheorems

section SlippageTheorems

open Enh

/-- C7 (scenario S5): with zero spread and the volume tiers
`[{threshold 0, 5 bps}, {threshold 500000, 15 bps}]`, a BUY of 1000 shares
at market price 100 fills at 100.05 when volume is 400000 and at 100.15 when
volume is 1000000, for any configured commission model, with fill quantity
equal to the order quantity. -/
theorem volume_tiered_slippage :
    ∀ cm : CommissionModel,
      (({ slippage_model := mkVolumeBased [⟨0, 5⟩, ⟨500000, 15⟩],
          commission_model := cm, spread_bps := 0 } : ExecutionEngine).execute_order
          { symbol := "TEST", side := "BUY", qty := 1000 } 100 400000).price = 100.05 ∧
      (({ slippage_model := mkVolumeBased [⟨0, 5⟩, ⟨500000, 15⟩],
          commission_model := cm, spread_bps := 0 } : ExecutionEngine).execute_order
          { symbol := "TEST", side := "BUY", qty := 1000 } 100 400000).qty = 1000 ∧
      (({ slippage_model := mkVolumeBased [⟨0, 5⟩, ⟨500000, 15⟩],
          commission_model := cm, spread_bps := 0 } : ExecutionEngine).execute_order
          { symbol := "TEST", side := "BUY", qty := 1000 } 100 1000000).price = 100.15 ∧
      (({ slippage_model := mkVolumeBased [⟨0, 5⟩, ⟨500000, 15⟩],
          commission_model := cm, spread_bps := 0 } : ExecutionEngine).execute_order
          { symbol := "TEST", side := "BUY", qty := 1000 } 100 1000000).qty = 1000 := by
  intro cm
  have hsort : mkVolumeBased [⟨0, 5⟩, ⟨500000, 15⟩]
      = SlippageModel.volumeBased [⟨0, 5⟩, ⟨500000, 15⟩] := by
    norm_num [mkVolumeBased, List.insertionSort, List.orderedInsert]
  refine ⟨?_, rfl, ?_, rfl⟩ <;>
    norm_num [ExecutionEngine.execute_order, hsort, SlippageModel.calculate_slippage,
      pickTierBps, List.find?]

end SlippageTheorems

section TradeMetricsTheorems

open Metrics

lemma process_trade_winning (s : TradeListProcessor) (t : TradeRec) :
    (s.process_trade t).winning_trades
      = s.winning_trades + (if 0 < t.pnl.getD 0 then 1 else 0) := by
  simp only [TradeListProcessor.process_trade]
  split_ifs with h1 h2 <;> simp [h1]

lemma process_trade_losing (s : TradeListProcessor) (t : TradeRec) :
    (s.process_trade t).losing_trades
      = s.losing_trades + (if t.pnl.getD 0 < 0 then 1 else 0) := by
  simp only [TradeListProcessor.process_trade]
  split_ifs <;> simp_all
  all_goals exfalso
  all_goals linarith

/-- The winning/losing tallies of the fold of `process_trade` over a trade
list count exactly the trades with positive and negative P&L. -/
lemma processAll_counts (ts : List TradeRec) (s : TradeListProcessor) :
    (ts.foldl TradeListProcessor.process_trade s).winning_trades
      = s.winning_trades + (ts.filter fun t => decide (0 < t.pnl.getD 0)).length ∧
    (ts.foldl TradeListProcessor.process_trade s).losing_trades
      = s.losing_trades + (ts.filter fun t => decide (t.pnl.getD 0 < 0)).length := by
  induction ts generalizing s with
  | nil => simp
  | cons t rest ih =>
      rw [List.foldl_cons, List.filter_cons, List.filter_cons]
      obtain ⟨ih1, ih2⟩ := ih (s.process_trade t)
      constructor
      · rw [ih1, process_trade_winning]
        by_cases h : 0 < t.pnl.getD 0 <;> simp [h] <;> omega
      · rw [ih2, process_trade_losing]
        by_cases h : t.pnl.getD 0 < 0 <;> simp [h] <;> omega

/-- C8: `TradeListProcessor` counts winning/losing trades by the sign of
`pnl` (as the claim states), and profit factor is `gross_wins/gross_losses`
with `∞` when there are trades but no losses; `MetricsCalculator`'s trade
metrics instead count every `sell` row as a win and every `buy` row as a
loss and return profit factor 0 when there are no "losses" — shown at the
failing input: a losing round trip recorded as its sell leg. -/
theorem trade_win_loss_semantics :
    (∀ ts : List TradeRec,
      (processAll ts).winning_trades
        = (ts.filter fun t => decide (0 < t.pnl.getD 0)).length ∧
      (processAll ts).losing_trades
        = (ts.filter fun t => decide (t.pnl.getD 0 < 0)).length) ∧
    ((processAll [⟨some (-5)⟩]).get_metrics).winning_trades = 0 ∧
    ((processAll [⟨some (-5)⟩]).get_metrics).losing_trades = 1 ∧
    ((processAll [⟨some 5⟩]).get_metrics).profit_factor = ⊤ ∧
    (calculate_trade_metrics [{ side := "sell", value := 100 }]).winning_trades = 1 ∧
    (calculate_trade_metrics [{ side := "sell", value := 100 }]).losing_trades = 0 ∧
    (calculate_trade_metrics [{ side := "sell", value := 100 }]).profit_factor = 0 := by
  refine ⟨?_, ?_, ?_, ?_, ?_, ?_, ?_⟩
  · intro ts
    have h := processAll_counts ts TradeListProcessor.initState
    simpa [processAll, TradeListProcessor.initState] using h
  all_goals
    norm_num [processAll, TradeListProcessor.initState,
      TradeListProcessor.process_trade, TradeListProcessor.get_metrics,
      calculate_trade_metrics, List.filter,
      show ("sell" == "buy") = false from rfl,
      show ("sell" == "sell") = true from rfl]

end TradeMetricsTheorems

section KillSwitchTheorems

open KS

lemma popVariance_nonneg (l : List ℚ) : 0 ≤ popVariance l := by
  unfold popVariance
  split_ifs with h
  · exact le_refl 0
  · apply div_nonneg
    · apply List.sum_nonneg
      intro x hx
      rcases List.mem_map.mp hx with ⟨y, _, rfl⟩
      positivity
    · positivity

/-- `stdVolTripped` decides exactly the source's comparison
`np.std(returns) * np.sqrt(252) >= max_volatility`, i.e.
`√(variance) · √252 ≥ c` over the reals. -/
lemma stdVolTripped_iff (returns : List ℚ) (c : ℚ) :
    stdVolTripped returns c = true ↔
      (c : ℝ) ≤ Real.sqrt ((popVariance returns : ℚ) : ℝ) * Real.sqrt 252 := by
  have hv : (0 : ℝ) ≤ ((popVariance returns : ℚ) : ℝ) := by
    exact_mod_cast popVariance_nonneg returns
  rw [← Real.sqrt_mul hv 252]
  unfold stdVolTripped
  rw [Bool.or_eq_true, decide_eq_true_iff, decide_eq_true_iff]
  constructor
  · rintro (hc | hc)
    · exact le_trans (by exact_mod_cast hc) (Real.sqrt_nonneg _)
    · by_cases h0 : c ≤ 0
      · exact le_trans (by exact_mod_cast h0) (Real.sqrt_nonneg _)
      · push_neg at h0
        rw [Real.le_sqrt' (by exact_mod_cast h0)]
        have hcast : ((c : ℚ) : ℝ) ^ 2 ≤ 252 * ((popVariance returns : ℚ) : ℝ) := by
          exact_mod_cast hc
        linarith
  · intro h
    by_cases h0 : c ≤ 0
    · exact Or.inl h0
    · push_neg at h0
      right
      rw [Real.le_sqrt' (by exact_mod_cast h0)] at h
      have hcast : ((c : ℚ) : ℝ) ^ 2 ≤ 252 * ((popVariance returns : ℚ) : ℝ) := by
        linarith
      exact_mod_cast hcast

lemma drawdown_latch (s : DrawdownTrigger) (P : Core.Portfolio)
    (pr : List (String × ℚ)) (t : Timestamp) (h : s.base.activated = true) :
    s.check P pr t = (true, s) := by
  simp [DrawdownTrigger.check, h]

lemma drawdown_sets (s : DrawdownTrigger) (P : Core.Portfolio)
    (pr : List (String × ℚ)) (t : Timestamp) (h : (s.check P pr t).1 = true) :
    (s.check P pr t).2.base.activated = true := by
  by_cases ha : s.base.activated
  · rw [drawdown_latch s P pr t ha]
    exact ha
  · simp only [DrawdownTrigger.check] at h ⊢
    rw [if_neg ha] at h ⊢
    split_ifs at h ⊢ <;> simp_all [KillSwitchTrigger.activate]

lemma loss_latch (s : LossTrigger) (P : Core.Portfolio)
    (pr : List (String × ℚ)) (t : Timestamp) (h : s.base.activated = true) :
    s.check P pr t = (true, s) := by
  simp [LossTrigger.check, h]

lemma loss_sets (s : LossTrigger) (P : Core.Portfolio)
    (pr : List (String × ℚ)) (t : Timestamp) (h : (s.check P pr t).1 = true) :
    (s.check P pr t).2.base.activated = true := by
  by_cases ha : s.base.activated
  · rw [loss_latch s P pr t ha]
    exact ha
  · simp only [LossTrigger.check] at h ⊢
    rw [if_neg ha] at h ⊢
    split_ifs at h ⊢ <;> simp_all [KillSwitchTrigger.activate]

lemma volatility_latch (s : VolatilityTrigger) (P : Core.Portfolio)
    (pr : List (String × ℚ)) (t : Timestamp) (h : s.base.activated = true) :
    s.check P pr t = (true, s) := by
  simp [VolatilityTrigger.check, h]

lemma volatility_sets (s : VolatilityTrigger) (P : Core.Portfolio)
    (pr : List (String × ℚ)) (t : Timestamp) (h : (s.check P pr t).1 = true) :
    (s.check P pr t).2.base.activated = true := by
  by_cases ha : s.base.activated
  · rw [volatility_latch s P pr t ha]
    exact ha
  · simp only [VolatilityTrigger.check] at h ⊢
    rw [if_neg ha] at h ⊢
    split_ifs at h ⊢ <;> simp_all [KillSwitchTrigger.activate]

lemma var_latch (s : VaRTrigger) (P : Core.Portfolio)
    (pr : List (String × ℚ)) (t : Timestamp) (h : s.base.activated = true) :
    s.check P pr t = (true, s) := by
  simp [VaRTrigger.check, h]

lemma var_sets (s : VaRTrigger) (P : Core.Portfolio)
    (pr : List (String × ℚ)) (t : Timestamp) (h : (s.check P pr t).1 = true) :
    (s.check P pr t).2.base.activated = true := by
  by_cases ha : s.base.activated
  · rw [var_latch s P pr t ha]
    exact ha
  · simp only [VaRTrigger.check] at h ⊢
    rw [if_neg ha] at h ⊢
    split_ifs at h ⊢ <;> simp_all [KillSwitchTrigger.activate]

lemma time_latch (s : TimeBasedTrigger) (P : Core.Portfolio)
    (pr : List (String × ℚ)) (t : Timestamp) (h : s.base.activated = true) :
    s.check P pr t = (true, s) := by
  simp [TimeBasedTrigger.check, h]

lemma time_sets (s : TimeBasedTrigger) (P : Core.Portfolio)
    (pr : List (String × ℚ)) (t : Timestamp) (h : (s.check P pr t).1 = true) :
    (s.check P pr t).2.base.activated = true := by
  by_cases ha : s.base.activated
  · rw [time_latch s P pr t ha]
    exact ha
  · simp only [TimeBasedTrigger.check] at h ⊢
    rw [if_neg ha] at h ⊢
    split_ifs at h ⊢ <;> simp_all [KillSwitchTrigger.activate]

/-- C6: every kill-switch trigger latches.  For each of the five triggers:
once `activated` is set, `check` returns `true` immediately with the whole
trigger state — `activated`, `activation_time`, `activation_reason` and all
accumulated history — unchanged (so the underlying predicate is not
re-evaluated); and whenever `check` returns `true`, the resulting state has
`activated = true`, so every subsequent `check` call returns `true` until
`reset`. -/
theorem killswitch_latching :
    (∀ (s : DrawdownTrigger) (P : Core.Portfolio) (pr : List (String × ℚ)) (t : Timestamp),
      s.base.activated = true → s.check P pr t = (true, s)) ∧
    (∀ (s : DrawdownTrigger) (P : Core.Portfolio) (pr : List (String × ℚ)) (t : Timestamp),
      (s.check P pr t).1 = true → (s.check P pr t).2.base.activated = true) ∧
    (∀ (s : LossTrigger) (P : Core.Portfolio) (pr : List (String × ℚ)) (t : Timestamp),
      s.base.activated = true → s.check P pr t = (true, s)) ∧
    (∀ (s : LossTrigger) (P : Core.Portfolio) (pr : List (String × ℚ)) (t : Timestamp),
      (s.check P pr t).1 = true → (s.check P pr t).2.base.activated = true) ∧
    (∀ (s : VolatilityTrigger) (P : Core.Portfolio) (pr : List (String × ℚ)) (t : Timestamp),
      s.base.activated = true → s.check P pr t = (true, s)) ∧
    (∀ (s : VolatilityTrigger) (P : Core.Portfolio) (pr : List (String × ℚ)) (t : Timestamp),
      (s.check P pr t).1 = true → (s.check P pr t).2.base.activated = true) ∧
    (∀ (s : VaRTrigger) (P : Core.Portfolio) (pr : List (String × ℚ)) (t : Timestamp),
      s.base.activated = true → s.check P pr t = (true, s)) ∧
    (∀ (s : VaRTrigger) (P : Core.Portfolio) (pr : List (String × ℚ)) (t : Timestamp),
      (s.check P pr t).1 = true → (s.check P pr t).2.base.activated = true) ∧
    (∀ (s : TimeBasedTrigger) (P : Core.Portfolio) (pr : List (String × ℚ)) (t : Timestamp),
      s.base.activated = true → s.check P pr t = (true, s)) ∧
    (∀ (s : TimeBasedTrigger) (P : Core.Portfolio) (pr : List (String × ℚ)) (t : Timestamp),
      (s.check P pr t).1 = true → (s.check P pr t).2.base.activated = true) :=
  ⟨drawdown_latch, drawdown_sets, loss_latch, loss_sets, volatility_latch,
   volatility_sets, var_latch, var_sets, time_latch, time_sets⟩

/-- Witness for `killswitch_latching`: each of the five concrete activated
triggers returns `true` from `check` with its state unchanged, and that
state still has `activated = true`. -/
theorem killswitch_latching_witness :
    (sampleDrawdown.base.activated = true ∧
      sampleDrawdown.check (Core.Portfolio.init 0) [] t0 = (true, sampleDrawdown) ∧
      (sampleDrawdown.check (Core.Portfolio.init 0) [] t0).2.base.activated = true) ∧
    (sampleLoss.base.activated = true ∧
      sampleLoss.check (Core.Portfolio.init 0) [] t0 = (true, sampleLoss) ∧
      (sampleLoss.check (Core.Portfolio.init 0) [] t0).2.base.activated = true) ∧
    (sampleVolatility.base.activated = true ∧
      sampleVolatility.check (Core.Portfolio.init 0) [] t0 = (true, sampleVolatility) ∧
      (sampleVolatility.check (Core.Portfolio.init 0) [] t0).2.base.activated = true) ∧
    (sampleVaR.base.activated = true ∧
      sampleVaR.check (Core.Portfolio.init 0) [] t0 = (true, sampleVaR) ∧
      (sampleVaR.check (Core.Portfolio.init 0) [] t0).2.base.activated = true) ∧
    (sampleTime.base.activated = true ∧
      sampleTime.check (Core.Portfolio.init 0) [] t0 = (true, sampleTime) ∧
      (sampleTime.check (Core.Portfolio.init 0) [] t0).2.base.activated = true) :=
  ⟨⟨rfl, killswitch_latching.1 sampleDrawdown (Core.Portfolio.init 0) [] t0 rfl,
    killswitch_latching.2.1 sampleDrawdown (Core.Portfolio.init 0) [] t0
      (by rw [killswitch_latching.1 sampleDrawdown (Core.Portfolio.init 0) [] t0 rfl])⟩,
   ⟨rfl, killswitch_latching.2.2.1 sampleLoss (Core.Portfolio.init 0) [] t0 rfl,
    killswitch_latching.2.2.2.1 sampleLoss (Core.Portfolio.init 0) [] t0
      (by rw [killswitch_latching.2.2.1 sampleLoss (Core.Portfolio.init 0) [] t0 rfl])⟩,
   ⟨rfl, killswitch_latching.2.2.2.2.1 sampleVolatility (Core.Portfolio.init 0) [] t0 rfl,
    killswitch_latching.2.2.2.2.2.1 sampleVolatility (Core.Portfolio.init 0) [] t0
      (by rw [killswitch_latching.2.2.2.2.1 sampleVolatility
        (Core.Portfolio.init 0) [] t0 rfl])⟩,
   ⟨rfl, killswitch_latching.2.2.2.2.2.2.1 sampleVaR (Core.Portfolio.init 0) [] t0 rfl,
    killswitch_latching.2.2.2.2.2.2.2.1 sampleVaR (Core.Portfolio.init 0) [] t0
      (by rw [killswitch_latching.2.2.2.2.2.2.1 sampleVaR
        (Core.Portfolio.init 0) [] t0 rfl])⟩,
   ⟨rfl, killswitch_latching.2.2.2.2.2.2.2.2.1 sampleTime (Core.Portfolio.init 0) [] t0 rfl,
    killswitch_latching.2.2.2.2.2.2.2.2.2 sampleTime (Core.Portfolio.init 0) [] t0
      (by rw [killswitch_latching.2.2.2.2.2.2.2.2.1 sampleTime
        (Core.Portfolio.init 0) [] t0 rfl])⟩⟩

end KillSwitchTheorems

end Spec2Proof
